import Mathlib

/-!
# Verification of the pdfgrepui core against its specification

This file gives a shallow embedding, in Lean 4, of the core logic of the
`pdfgrepui` program (files `cache.py`, `indexer.py`, `models.py`,
`renderer.py`, `app.py`, `search.py`) and proves or refutes the frozen
claims about it.

Modelling conventions:
* Python strings are modelled as `List Char`; `str.lower()` is modelled
  per-character by `Char.toLower` (ASCII case mapping).
* Python machine integers are unbounded, so `Nat`/`Int` are used directly.
* Calls into external processes and the filesystem are modelled by explicit
  parameters describing the environment (tool results, directory listings,
  the state of the metadata file).
* A Python `while True` loop is modelled by a fuel-indexed recursion; fuel
  exhaustion (`none`) models divergence.  Code that can raise an uncaught
  exception returns `Option`/`Except`, with `none`/`.error` modelling the
  raise.
-/

namespace PdfGrepUi

/-! ## Strings: Python `str.lower` and `str.find` (indexer.py lines 47-57) -/

/-- Model of Python `str.lower()` applied per character. -/
def pyLower (s : List Char) : List Char := s.map Char.toLower

/-- `occursAt hay needle i` — the substring of `hay` starting at `i` equals
`needle` (Python `hay[i:i+len(needle)] == needle`). -/
def occursAt (hay needle : List Char) (i : Nat) : Prop :=
  (hay.drop i).take needle.length = needle

instance (hay needle : List Char) (i : Nat) : Decidable (occursAt hay needle i) := by
  unfold occursAt; infer_instance

/-- Scan positions `i, i+1, ..., i+k-1` for the first occurrence of
`needle` in `hay`. -/
def strFindGo (hay needle : List Char) : Nat → Nat → Option Nat
  | _, 0 => none
  | i, Nat.succ k =>
    if occursAt hay needle i then some i else strFindGo hay needle (i + 1) k

/-- Model of Python `hay.find(needle, start)`: the least index `idx ≥ start`
at which `needle` occurs in `hay` (candidate positions run up to
`hay.length`, as in Python), `none` (Python `-1`) when there is none. -/
def strFind (hay needle : List Char) (start : Nat) : Option Nat :=
  strFindGo hay needle start (hay.length + 1 - start)

/-! ## `_find_matches` in literal mode (indexer.py lines 43-57)

The Python loop

    start = 0
    while True:
        idx = lowered.find(needle, start)
        if idx == -1: break
        matches.append((idx, idx + len(needle)))
        start = idx + len(needle)

is modelled with explicit fuel; the appends build the same list as the cons
in the recursion below (current pair before the pairs of later iterations).
The regex branch of `_find_matches` delegates to Python's `re` engine and is
not modelled. -/

/-- One fuelled run of the literal-search loop from position `start`;
`none` models non-termination within the given fuel. -/
def find_matches_aux (lowered needle : List Char) : Nat → Nat → Option (List (Nat × Nat))
  | 0, _ => none
  | Nat.succ fuel, start =>
    match strFind lowered needle start with
    | none => some []
    | some idx =>
      match find_matches_aux lowered needle fuel (idx + needle.length) with
      | none => none
      | some rest => some ((idx, idx + needle.length) :: rest)

/-- Model of `_find_matches(text, query, regex=False)`.  The fuel
`text.length + 1` is sufficient whenever the query is non-empty (proved
below); for the empty query the Python loop diverges, modelled by `none`. -/
def find_matches_literal (text query : List Char) : Option (List (Nat × Nat)) :=
  find_matches_aux (pyLower text) (pyLower query) (text.length + 1) 0

/-! ### Basic facts about `occursAt` and `strFind` -/

theorem occursAt_bound {hay needle : List Char} {i : Nat}
    (hne : needle ≠ []) (h : occursAt hay needle i) :
    i + needle.length ≤ hay.length := by
  unfold occursAt at h
  have hlen := congrArg List.length h
  have hnl : 0 < needle.length := List.length_pos.mpr hne
  simp only [List.length_take, List.length_drop] at hlen
  omega

theorem strFindGo_none {hay needle : List Char} :
    ∀ {k i : Nat}, strFindGo hay needle i k = none →
      ∀ j, i ≤ j → j < i + k → ¬ occursAt hay needle j := by
  intro k
  induction k with
  | zero => intro i _ j h1 h2; omega
  | succ k ih =>
    intro i h j h1 h2
    unfold strFindGo at h
    by_cases hocc : occursAt hay needle i
    · simp [hocc] at h
    · simp [hocc] at h
      rcases Nat.eq_or_lt_of_le h1 with rfl | hlt
      · exact hocc
      · exact ih h j hlt (by omega)

theorem strFindGo_some {hay needle : List Char} :
    ∀ {k i idx : Nat}, strFindGo hay needle i k = some idx →
      i ≤ idx ∧ occursAt hay needle idx ∧
        ∀ j, i ≤ j → j < idx → ¬ occursAt hay needle j := by
  intro k
  induction k with
  | zero => intro i idx h; simp [strFindGo] at h
  | succ k ih =>
    intro i idx h
    unfold strFindGo at h
    by_cases hocc : occursAt hay needle i
    · simp [hocc] at h
      subst h
      exact ⟨Nat.le_refl _, hocc, fun j h1 h2 => by omega⟩
    · simp [hocc] at h
      obtain ⟨h1, h2, h3⟩ := ih h
      refine ⟨by omega, h2, fun j hj1 hj2 => ?_⟩
      rcases Nat.eq_or_lt_of_le hj1 with rfl | hlt
      · exact hocc
      · exact h3 j hlt hj2

theorem strFind_none {hay needle : List Char} {start : Nat}
    (hne : needle ≠ []) (h : strFind hay needle start = none) :
    ∀ j, start ≤ j → ¬ occursAt hay needle j := by
  intro j hj hocc
  have hb := occursAt_bound hne hocc
  have hnl : 1 ≤ needle.length := by
    cases needle with
    | nil => exact absurd rfl hne
    | cons c cs => simp
  exact strFindGo_none h j hj (by omega) hocc

theorem strFind_some {hay needle : List Char} {start idx : Nat}
    (h : strFind hay needle start = some idx) :
    start ≤ idx ∧ occursAt hay needle idx ∧
      ∀ j, start ≤ j → j < idx → ¬ occursAt hay needle j :=
  strFindGo_some h

/-! ### Termination and characterization of the literal-search loop -/

theorem find_matches_aux_isSome {lowered needle : List Char} (hne : needle ≠ []) :
    ∀ (fuel start : Nat), lowered.length + 1 ≤ fuel + start → 1 ≤ fuel →
      (find_matches_aux lowered needle fuel start).isSome := by
  intro fuel
  induction fuel with
  | zero => intro start _ h1; omega
  | succ fuel ih =>
    intro start hbound _
    unfold find_matches_aux
    cases hfind : strFind lowered needle start with
    | none => simp
    | some idx =>
      obtain ⟨hle, hocc, _⟩ := strFind_some hfind
      have hb := occursAt_bound hne hocc
      have hnl : 1 ≤ needle.length := by
        cases needle with
        | nil => exact absurd rfl hne
        | cons c cs => simp
      have hrec := ih (idx + needle.length) (by omega) (by omega)
      cases hres : find_matches_aux lowered needle fuel (idx + needle.length) with
      | none => rw [hres] at hrec; simp at hrec
      | some rest => simp [hres]

theorem find_matches_aux_sound {lowered needle : List Char} (hne : needle ≠ []) :
    ∀ (fuel start : Nat) (ms : List (Nat × Nat)),
      find_matches_aux lowered needle fuel start = some ms →
      (∀ pr ∈ ms, pr.2 = pr.1 + needle.length ∧ occursAt lowered needle pr.1 ∧ start ≤ pr.1) ∧
      List.Chain' (fun a b : Nat × Nat => a.2 ≤ b.1) ms ∧
      (∀ i, start ≤ i → occursAt lowered needle i → ∃ pr ∈ ms, pr.1 ≤ i ∧ i < pr.2) := by
  intro fuel
  induction fuel with
  | zero => intro start ms h; simp [find_matches_aux] at h
  | succ fuel ih =>
    intro start ms h
    unfold find_matches_aux at h
    cases hfind : strFind lowered needle start with
    | none =>
      rw [hfind] at h
      simp at h
      subst h
      refine ⟨by simp, by simp, fun i hi hocc => absurd hocc (strFind_none hne hfind i hi)⟩
    | some idx =>
      rw [hfind] at h
      have h' : (match find_matches_aux lowered needle fuel (idx + needle.length) with
          | none => none
          | some rest => some ((idx, idx + needle.length) :: rest)) = some ms := h
      obtain ⟨hle, hocc, hmin⟩ := strFind_some hfind
      cases hres : find_matches_aux lowered needle fuel (idx + needle.length) with
      | none => rw [hres] at h'; simp at h'
      | some rest =>
        rw [hres] at h'
        simp at h'
        subst h'
        obtain ⟨hsound, hchain, hcompl⟩ := ih (idx + needle.length) rest hres
        have hnl : 1 ≤ needle.length := by
          cases needle with
          | nil => exact absurd rfl hne
          | cons c cs => simp
        refine ⟨?_, ?_, ?_⟩
        · intro pr hpr
          rcases List.mem_cons.mp hpr with rfl | hpr2
          · exact ⟨rfl, hocc, hle⟩
          · obtain ⟨h1, h2, h3⟩ := hsound pr hpr2
            exact ⟨h1, h2, by omega⟩
        · apply List.chain'_cons'.mpr
          refine ⟨?_, hchain⟩
          intro b hb
          have hbmem : b ∈ rest := by
            cases hrest : rest with
            | nil => simp [hrest] at hb
            | cons x xs => simp [hrest] at hb; subst hb; simp [hrest]
          obtain ⟨_, _, h3⟩ := hsound b hbmem
          exact h3
        · intro i hi hocci
          rcases Nat.lt_or_ge i idx with hlt | hge
          · exact absurd hocci (hmin i hi hlt)
          · rcases Nat.lt_or_ge i (idx + needle.length) with hlt2 | hge2
            · exact ⟨(idx, idx + needle.length), by simp, hge, hlt2⟩
            · obtain ⟨pr, hpr, hp1, hp2⟩ := hcompl i hge2 hocci
              exact ⟨pr, by simp [hpr], hp1, hp2⟩

theorem pyLower_ne_nil {q : List Char} (h : q ≠ []) : pyLower q ≠ [] := by
  cases q with
  | nil => exact absurd rfl h
  | cons c cs => simp [pyLower]

theorem pyLower_length (s : List Char) : (pyLower s).length = s.length := by
  simp [pyLower]

/-- For a non-empty query the literal search terminates and returns a list. -/
theorem find_matches_literal_isSome {text query : List Char} (hq : query ≠ []) :
    (find_matches_literal text query).isSome := by
  unfold find_matches_literal
  exact find_matches_aux_isSome (pyLower_ne_nil hq)
    (text.length + 1) 0 (by simp [pyLower_length]) (by omega)

/-- For the empty query the loop body never reaches its exit condition:
whatever the fuel, the run is cut off by fuel exhaustion (the Python loop
diverges: `find` returns the current position and the position never
advances). -/
theorem find_matches_aux_empty_needle (lowered : List Char) :
    ∀ fuel : Nat, find_matches_aux lowered [] fuel 0 = none := by
  intro fuel
  induction fuel with
  | zero => rfl
  | succ fuel ih =>
    unfold find_matches_aux
    have hfind : strFind lowered [] 0 = some 0 := by
      unfold strFind strFindGo
      cases h : lowered.length + 1 - 0 with
      | zero => omega
      | succ k =>
        have hocc : occursAt lowered [] 0 := by simp [occursAt]
        simp [strFindGo, hocc]
    rw [hfind]
    simp [ih]

/-! ## Data model (models.py)

Python `@dataclass` generates structural equality over all declared fields,
which `DecidableEq` on a Lean structure reproduces exactly. -/

/-- `SearchMatch` (models.py lines 8-13). -/
structure SearchMatch where
  pdf_path : String
  page_number : Nat
  match_index : Nat
  context : List Char
deriving DecidableEq, Repr

/-- `PdfDoc` (models.py lines 16-20). -/
structure PdfDoc where
  path : String
  page_count : Nat
  matches' : List SearchMatch
deriving DecidableEq, Repr

/-! ## `_context_snippet` (indexer.py lines 60-64) -/

/-- Python `str.strip()`: remove leading and trailing whitespace. -/
def pyStrip (s : List Char) : List Char :=
  ((s.dropWhile Char.isWhitespace).reverse.dropWhile Char.isWhitespace).reverse

/-- `radius` default argument of `_context_snippet`. -/
def snippetRadius : Nat := 80

/-- Model of `_context_snippet(text, start, end)`: a window of
`snippetRadius` characters each side, clipped to the text bounds, stripped,
with newlines replaced by spaces (`Nat` subtraction is Python's
`max(start - radius, 0)`). -/
def context_snippet (text : List Char) (s e : Nat) : List Char :=
  let left := s - snippetRadius
  let right := min (e + snippetRadius) text.length
  (pyStrip ((text.drop left).take (right - left))).map
    (fun c => if c = '\n' then ' ' else c)

/-! ## `index_pdf` (indexer.py lines 67-92)

The cache interaction of `index_pdf` (lines 68-76) obtains a page count and,
per page, `_extract_page_text` obtains the page's text from the cache or the
external `pdftotext` tool; the document is therefore modelled by its page
count `page_count` and a function `page_text` giving the text that
extraction returns for each page.  The model returns, besides the resulting
`PdfDoc`, the trace of page numbers passed to `_extract_page_text`, in call
order.  Matching is instantiated with the literal branch of
`_find_matches`. -/

/-- The matches appended for one page's match list `ms` when the running
`match_index` counter is `k` on entry (inner loop, indexer.py lines 81-91). -/
def page_matches (path : String) (page : Nat) (text : List Char) :
    Nat → List (Nat × Nat) → List SearchMatch
  | _, [] => []
  | k, (s, e) :: rest =>
    { pdf_path := path, page_number := page, match_index := k + 1,
      context := context_snippet text s e } :: page_matches path page text (k + 1) rest

/-- The per-page loop of `index_pdf` over the remaining `(page, text)` pairs,
with `k` the `match_index` counter so far.  Returns the accumulated matches
and the trace of extracted pages; `none` models a diverging call to
`_find_matches`. -/
def index_pages (path : String) (query : List Char) :
    List (Nat × List Char) → Nat → Option (List SearchMatch × List Nat)
  | [], _ => some ([], [])
  | (p, text) :: rest, k =>
    match find_matches_literal text query with
    | none => none
    | some ms =>
      match index_pages path query rest (k + ms.length) with
      | none => none
      | some (tailMatches, tailTrace) =>
        some (page_matches path p text k ms ++ tailMatches, p :: tailTrace)

/-- Model of `index_pdf(pdf_path, query, regex=False)`: pages
`1 .. page_count` in order, literal matching, ordinals assigned by one
monotone counter. -/
def index_pdf (path : String) (page_count : Nat) (page_text : Nat → List Char)
    (query : List Char) : Option (PdfDoc × List Nat) :=
  match index_pages path query ((List.range' 1 page_count).map (fun p => (p, page_text p))) 0 with
  | none => none
  | some (ms, trace) => some ({ path := path, page_count := page_count, matches' := ms }, trace)

/-! ## `PdfGrepApp._index_documents` (app.py lines 124-133)

Candidate discovery (`find_candidate_pdfs`, search.py) invokes the external
`rga` tool; the candidate list is therefore a parameter, each candidate
being a path together with the page count and page texts that the external
tools report for it. -/

/-- One candidate document as the external tools present it. -/
structure Candidate where
  path : String
  page_count : Nat
  page_text : Nat → List Char

/-- Model of `_index_documents`: index each candidate in order, keep only
documents with at least one match, and extend the flat match list with each
kept document's matches. -/
def index_documents (candidates : List Candidate) (query : List Char) :
    Option (List PdfDoc × List SearchMatch) :=
  match candidates with
  | [] => some ([], [])
  | c :: rest =>
    match index_pdf c.path c.page_count c.page_text query with
    | none => none
    | some (doc, _) =>
      match index_documents rest query with
      | none => none
      | some (docs, ms) =>
        if doc.matches'.isEmpty then some (docs, ms)
        else some (doc :: docs, doc.matches' ++ ms)

/-! ## Navigation state machine (app.py)

The three position fields of `PdfGrepApp` (app.py lines 88-90) form the
navigation state; the session data it operates on are the `documents` and
`matches` lists produced by `_index_documents`.  Each transition returns
the new state together with a `Bool` recording whether a render request
(`_render_current_page`) was triggered; a transition that can raise an
uncaught exception (`IndexError` from list indexing, `ValueError` from
`list.index`) returns `Option`, with `none` modelling the raise. -/

/-- The mutable position fields of `PdfGrepApp`. -/
structure NavState where
  current_match_index : Option Nat
  current_pdf_index : Option Nat
  current_page : Option Nat
deriving DecidableEq, Repr

/-- The session data navigation operates on. -/
structure Session where
  documents : List PdfDoc
  matches' : List SearchMatch
deriving Repr

/-- Model of `_doc_index_for_match` (app.py lines 210-214): index of the
first document whose path equals the match's `pdf_path`, else `None`. -/
def doc_index_for_match (docs : List PdfDoc) (m : SearchMatch) : Option Nat :=
  match docs with
  | [] => none
  | d :: rest =>
    if d.path = m.pdf_path then some 0
    else (doc_index_for_match rest m).map (· + 1)

/-- Model of Python `xs.index(a)` on a list: position of the first element
equal to `a`, `none` modelling the `ValueError` raise. -/
def py_list_index (xs : List SearchMatch) (a : SearchMatch) : Option Nat :=
  match xs with
  | [] => none
  | x :: rest =>
    if x = a then some 0
    else (py_list_index rest a).map (· + 1)

/-- Model of `_jump_to_match(match_index)` (app.py lines 200-208).  The
argument is an `Int` since Python callers may pass any integer.  Returns
the new state and whether a render was requested. -/
def jump_to_match (sess : Session) (nav : NavState) (i : Int) : NavState × Bool :=
  if i < 0 ∨ (sess.matches'.length : Int) ≤ i then (nav, false)
  else
    match sess.matches'.get? i.toNat with
    | none => (nav, false)  -- unreachable: the guard bounds the index
    | some m =>
      ({ current_match_index := some i.toNat,
         current_pdf_index := doc_index_for_match sess.documents m,
         current_page := some m.page_number }, true)

/-- Model of `_jump_to_doc_start(doc)` (app.py lines 274-280), called with
`current_pdf_index` already advanced by the caller; `none` models the
`ValueError` from `self.matches.index` when the match is absent from the
flat list. -/
def jump_to_doc_start (sess : Session) (nav : NavState) (doc : PdfDoc) : Option NavState :=
  match doc.matches' with
  | [] => some { nav with current_page := some 1 }
  | first :: _ =>
    match py_list_index sess.matches' first with
    | none => none
    | some j =>
      some { nav with current_match_index := some j,
                      current_page := some first.page_number }

/-- Model of `_next_page` (app.py lines 242-256).  `none` models an uncaught
`IndexError`/`ValueError`; otherwise the new state and whether a render was
requested. -/
def next_page (sess : Session) (nav : NavState) : Option (NavState × Bool) :=
  match nav.current_pdf_index, nav.current_page with
  | some i, some p =>
    match sess.documents.get? i with
    | none => none  -- IndexError: self.documents[self.current_pdf_index]
    | some doc =>
      if p < doc.page_count then
        some ({ nav with current_page := some (p + 1) }, true)
      else if i + 1 < sess.documents.length then
        match sess.documents.get? (i + 1) with
        | none => none  -- unreachable: guarded by the length test
        | some next_doc =>
          match jump_to_doc_start sess { nav with current_pdf_index := some (i + 1) } next_doc with
          | none => none
          | some nav2 => some (nav2, true)
      else some (nav, false)
  | _, _ => some (nav, false)

/-! ## Cache store: `load_meta` (cache.py lines 36-42)

The metadata dictionary `{mtime, page_count, rendered_pages}` is modelled
with every key optional (a Python dict may lack any of them); the empty
dict has all three absent.  The file `load_meta` reads is modelled by the
condition `read_text`/`json.loads` find it in; `load_meta` catches exactly
`json.JSONDecodeError`. -/

/-- The metadata dictionary; `none` models an absent key. -/
structure MetaDict where
  mtime : Option Nat
  page_count : Option Nat
  rendered_pages : Option (List Nat)
deriving DecidableEq, Repr

/-- The empty dict `{}`. -/
def emptyMeta : MetaDict := { mtime := none, page_count := none, rendered_pages := none }

/-- Condition of the metadata file, as distinguished by the code paths of
`load_meta`: absent; present with contents that decode (UTF-8) and parse
(JSON) to a dict `m`; present with decodable contents that fail JSON
parsing (`json.JSONDecodeError`); present with bytes that are not valid
UTF-8 (`read_text` raises `UnicodeDecodeError`); present but not readable
(`read_text` raises `OSError`). -/
inductive MetaFileState where
  | missing
  | jsonContent (m : MetaDict)
  | malformedJson
  | undecodableBytes
  | readError
deriving DecidableEq, Repr

/-- Exceptions `load_meta` can let escape. -/
inductive PyError where
  | unicodeDecodeError
  | osError
deriving DecidableEq, Repr

/-- Model of `load_meta(meta_path)` (cache.py lines 36-42): `{}` when the
file does not exist; the parsed dict otherwise; the `try/except` catches
only `json.JSONDecodeError`, so decoding and I/O errors propagate. -/
def load_meta : MetaFileState → Except PyError MetaDict
  | .missing => .ok emptyMeta
  | .jsonContent m => .ok m
  | .malformedJson => .ok emptyMeta
  | .undecodableBytes => .error .unicodeDecodeError
  | .readError => .error .osError

/-! ## Renderer: backend selection in `render_page` (renderer.py lines 99-113)

After `_render_page_png` produces the raster file, `render_page` chooses a
terminal backend.  The environment is modelled by the raw value of
`PDFGREPUI_RENDERER` (the empty string models an unset variable, as
`os.environ.get(..., "")` yields), the availability of each binary
(`shutil.which`), and the outcome each backend invocation would have
(`ok stdout` for exit 0, `error msg` for the `RuntimeError` raised on a
non-zero exit).  The model returns the list of backends actually invoked,
in order, together with the overall outcome. -/

/-- The two terminal image backends. -/
inductive Backend where
  | wezterm
  | chafa
deriving DecidableEq, Repr

/-- Environment of one `render_page` call, after the PNG exists. -/
structure RenderEnv where
  preferredRenderer : String
  weztermAvailable : Bool
  chafaAvailable : Bool
  weztermResult : Except String String
  chafaResult : Except String String

/-- Python `str.lower()` on a `String`. -/
def pyLowerStr (s : String) : String := String.mk (pyLower s.data)

/-- The message of the final `RuntimeError` (renderer.py line 113). -/
def noRendererMsg : String := "No renderer available (wezterm or chafa)"

/-- Model of the backend-selection portion of `render_page` (renderer.py
lines 101-113): explicit override first; otherwise try `wezterm` when
available, catching its `RuntimeError` and falling through to `chafa` when
that is available. -/
def render_page_backend (env : RenderEnv) : List Backend × Except String String :=
  let preferred := pyLowerStr env.preferredRenderer
  if preferred = "wezterm" then ([.wezterm], env.weztermResult)
  else if preferred = "chafa" then ([.chafa], env.chafaResult)
  else if env.weztermAvailable then
    match env.weztermResult with
    | .ok out => ([.wezterm], .ok out)
    | .error _ =>
      if env.chafaAvailable then ([.wezterm, .chafa], env.chafaResult)
      else ([.wezterm], .error noRendererMsg)
  else if env.chafaAvailable then ([.chafa], env.chafaResult)
  else ([], .error noRendererMsg)

/-! ## Renderer: `ensure_render_cache` (renderer.py lines 41-72)

The render directory is modelled as the list of filenames it contains, in
listing order; the `pdftoppm` invocation is modelled by its exit status and
the filenames it adds to the directory.  The reconciliation loop's filename
test is the compiled pattern `re.compile(r"page-(\d+)\\.png$")` — note that
inside the raw string `\\` denotes one literal backslash character, so the
regex matches `page-`, digits, a literal backslash, one arbitrary
non-newline character, then `png` at the end of the name. -/

/-- Value of a run of decimal digits (Python `int(...)` on the captured
group). -/
def digitsVal (ds : List Char) : Nat :=
  ds.foldl (fun n c => n * 10 + (c.toNat - '0'.toNat)) 0

/-- Match of the pattern `page-(\d+)\\.png$` anchored at the current
position: literal `page-`, then a maximal non-empty digit run (`\d+` is
greedy, and backtracking cannot help since the next required character is a
backslash, not a digit), then one literal backslash, then any character
except newline (`.`), then `png` at the end of the string.  Returns the
captured number. -/
def gen_pattern_at (cs : List Char) : Option Nat :=
  match cs with
  | 'p' :: 'a' :: 'g' :: 'e' :: '-' :: rest =>
    let ds := rest.takeWhile Char.isDigit
    let rest2 := rest.dropWhile Char.isDigit
    if ds.isEmpty then none
    else
      match rest2 with
      | '\\' :: c :: 'p' :: 'n' :: 'g' :: [] =>
        if c = '\n' then none else some (digitsVal ds)
      | _ => none
  | _ => none

/-- Model of `pattern.search(name)` for the compiled pattern above:
the leftmost position admitting a match. -/
def re_search_gen : List Char → Option Nat
  | [] => none
  | c :: rest =>
    match gen_pattern_at (c :: rest) with
    | some n => some n
    | none => re_search_gen rest

/-- The canonical per-page filename `page_<n>.png`. -/
def page_png_name (n : Nat) : List Char :=
  "page_".data ++ (Nat.repr n).data ++ ".png".data

/-- Whether a filename matches the glob pattern `page-*.png`. -/
def glob_page_dash_png (name : List Char) : Bool :=
  "page-".data.isPrefixOf name && "page-".data.length + ".png".data.length ≤ name.length
    && ".png".data.isSuffixOf name

/-- The reconciliation loop of `ensure_render_cache` (renderer.py lines
57-68) over the glob results `gens`, threading the directory contents and
the accumulated `rendered_pages` list.  A file whose name the regex does
not match is skipped; otherwise the file is deleted when the canonical
target already exists and renamed to it otherwise, and the page number is
appended to `rendered_pages` in either case. -/
def reconcile_generated : List (List Char) → List (List Char) → List Nat →
    List (List Char) × List Nat
  | [], files, acc => (files, acc)
  | g :: gs, files, acc =>
    match re_search_gen g with
    | none => reconcile_generated gs files acc
    | some n =>
      let target := page_png_name n
      if files.contains target then
        reconcile_generated gs (files.erase g) (acc ++ [n])
      else
        reconcile_generated gs ((files.erase g) ++ [target]) (acc ++ [n])

/-- Insert into a sorted list (ascending). -/
def insertSorted (n : Nat) : List Nat → List Nat
  | [] => [n]
  | m :: rest => if n ≤ m then n :: m :: rest else m :: insertSorted n rest

/-- Model of Python `sorted(set(xs))`: the ascending duplicate-free list of
the elements of `xs`. -/
def py_sorted_set (xs : List Nat) : List Nat :=
  (xs.dedup).foldr insertSorted []

/-- Model of `ensure_render_cache(pdf_path, page_count)` given the current
directory listing `files`, the metadata file condition `metaFile`, the
`pdftoppm` exit status `toolOk` and the filenames `toolFiles` the tool adds
to the directory.  Returns the final directory listing and the metadata
dict that `save_meta` writes, or `none` when the code raises (tool failure,
or an error escaping `load_meta`).  When every expected `page_<n>.png` is
already present the function returns without invoking the tool or touching
the metadata. -/
def ensure_render_cache (page_count : Nat) (files : List (List Char))
    (metaFile : MetaFileState) (toolOk : Bool) (toolFiles : List (List Char)) :
    Option (List (List Char) × Option MetaDict) :=
  if (List.range' 1 page_count).all (fun n => files.contains (page_png_name n)) then
    some (files, none)
  else if toolOk = false then none
  else
    let files1 := files ++ toolFiles
    let gens := files1.filter glob_page_dash_png
    let res := reconcile_generated gens files1 []
    match load_meta metaFile with
    | .error _ => none
    | .ok meta =>
      let old := meta.rendered_pages.getD []
      let merged := py_sorted_set (old ++ res.2)
      some (res.1, some { meta with rendered_pages := some merged })

/-! ## The claims -/

/-! ### C1 — renderer backend fallback -/

/-- A `render_page` environment with no override, `wezterm` installed but
failing, and `chafa` installed and succeeding. -/
def envWeztermFails : RenderEnv :=
  { preferredRenderer := "", weztermAvailable := true, chafaAvailable := true,
    weztermResult := .error "wezterm imgcat failed", chafaResult := .ok "chafa output" }

/-- C1 counterexample: without an explicit override and with the preferred
backend (`wezterm`) present, a failing `wezterm` invocation is retried with
the fallback backend `chafa`, whose output is returned — a render-time
failure of the preferred backend does trigger the fallback, contradicting
the claim that only absence does. -/
theorem c1_failure_triggers_fallback_counterexample :
    envWeztermFails.preferredRenderer = "" ∧
    envWeztermFails.weztermAvailable = true ∧
    render_page_backend envWeztermFails
      = ([Backend.wezterm, Backend.chafa], Except.ok "chafa output") :=
  ⟨rfl, rfl, rfl⟩

/-- C1 amended: without an explicit configuration override, when the
preferred backend `wezterm` is available but its invocation fails, the
fallback backend `chafa` is invoked whenever it is available and its result
is returned; only when `chafa` is additionally unavailable does the call
fail with the descriptive no-renderer error. -/
theorem c1_fallback_on_failure (env : RenderEnv) (msg : String)
    (h1 : pyLowerStr env.preferredRenderer ≠ "wezterm")
    (h2 : pyLowerStr env.preferredRenderer ≠ "chafa")
    (h3 : env.weztermAvailable = true)
    (h4 : env.weztermResult = .error msg) :
    (env.chafaAvailable = true →
      render_page_backend env = ([Backend.wezterm, Backend.chafa], env.chafaResult)) ∧
    (env.chafaAvailable = false →
      render_page_backend env = ([Backend.wezterm], .error noRendererMsg)) := by
  constructor <;> intro h5 <;> simp [render_page_backend, h1, h2, h3, h4, h5]

/-- Witness for the amended C1 at a concrete environment. -/
theorem c1_fallback_on_failure_witness :
    (envWeztermFails.chafaAvailable = true →
      render_page_backend envWeztermFails
        = ([Backend.wezterm, Backend.chafa], envWeztermFails.chafaResult)) ∧
    (envWeztermFails.chafaAvailable = false →
      render_page_backend envWeztermFails = ([Backend.wezterm], .error noRendererMsg)) :=
  c1_fallback_on_failure envWeztermFails "wezterm imgcat failed"
    (by decide) (by decide) rfl rfl

/-! ### C2 — bulk-render reconciliation -/

/-- C2: the code at the claim's failing input.  With one expected page, an
empty render directory, and a successful `pdftoppm` run that writes
`page-1.png`, `ensure_render_cache` leaves `page-1.png` in place (the
canonical `page_1.png` is never created) and records an empty
`rendered_pages` set: the raw-string regex `r"page-(\d+)\\.png$"` demands a
literal backslash before `png`, so no `page-<N>.png` tool output ever
matches and the reconciliation loop skips every file.  The claim (and the
sibling code `_render_page_png`, renderer.py line 32, which expects the
tool output name `page-{n}.png`) requires the file to be renamed to
`page_1.png` and `1` to be merged into the rendered-pages set. -/
theorem c2_reconciliation_never_matches :
    ensure_render_cache 1 [] MetaFileState.missing true ["page-1.png".data]
      = some (["page-1.png".data],
          some { mtime := none, page_count := none, rendered_pages := some [] }) ∧
    page_png_name 1 ∉ ["page-1.png".data] ∧
    re_search_gen "page-1.png".data = none := by
  refine ⟨by decide, by decide, by decide⟩

/-! ### C3 — `load_meta` error recovery -/

/-- C3 counterexample: a metadata file whose bytes are not valid UTF-8 is a
corrupt cache file, yet `load_meta` does not return the empty dict for it —
the `UnicodeDecodeError` raised by `read_text` escapes, because the
`try/except` catches only `json.JSONDecodeError`. -/
theorem c3_load_meta_corrupt_raises :
    ¬ ∃ m, load_meta MetaFileState.undecodableBytes = Except.ok m := by
  rintro ⟨m, h⟩
  simp [load_meta] at h

/-- C3 amended: `load_meta` returns the empty dict for a missing file and
for a readable file whose (UTF-8-decodable) contents fail JSON parsing, and
returns the stored dict otherwise; but a file whose bytes fail UTF-8
decoding, or whose read raises an `OSError`, makes `load_meta` raise rather
than return empty. -/
theorem c3_load_meta_behaviour :
    load_meta MetaFileState.missing = Except.ok emptyMeta ∧
    load_meta MetaFileState.malformedJson = Except.ok emptyMeta ∧
    (∀ m, load_meta (MetaFileState.jsonContent m) = Except.ok m) ∧
    load_meta MetaFileState.undecodableBytes = Except.error PyError.unicodeDecodeError ∧
    load_meta MetaFileState.readError = Except.error PyError.osError :=
  ⟨rfl, rfl, fun _ => rfl, rfl, rfl⟩

/-! ### C7 — out-of-range `jumpToMatch` is a no-op -/

/-- C7: `_jump_to_match` called with a flat index outside
`0 ≤ i < len(matches)` returns with the navigation state unchanged and no
render request; the model is total on this path, so no exception is
raised. -/
theorem c7_jump_to_match_out_of_range (sess : Session) (nav : NavState) (i : Int)
    (h : i < 0 ∨ (sess.matches'.length : Int) ≤ i) :
    jump_to_match sess nav i = (nav, false) := by
  unfold jump_to_match
  rw [if_pos h]

/-- Witness for C7 on a concrete session and an index past the end. -/
theorem c7_jump_to_match_out_of_range_witness :
    jump_to_match
      { documents := [{ path := "a.pdf", page_count := 3,
                        matches' := [{ pdf_path := "a.pdf", page_number := 2,
                                       match_index := 1, context := ['x'] }] }],
        matches' := [{ pdf_path := "a.pdf", page_number := 2,
                       match_index := 1, context := ['x'] }] }
      { current_match_index := some 0, current_pdf_index := some 0, current_page := some 2 }
      7
      = ({ current_match_index := some 0, current_pdf_index := some 0,
           current_page := some 2 }, false) :=
  c7_jump_to_match_out_of_range _ _ 7 (Or.inr (by decide))

/-! ### C9 — `SearchMatch` equality -/

/-- C9 counterexample: two `SearchMatch` values with identical
`(documentPath, pageNumber, ordinalWithinDocument)` triples but different
context snippets are not equal — dataclass equality compares every field,
so equality is not determined by the triple alone. -/
theorem c9_searchmatch_eq_counterexample :
    ¬ (∀ m1 m2 : SearchMatch,
        m1 = m2 ↔ (m1.pdf_path, m1.page_number, m1.match_index)
          = (m2.pdf_path, m2.page_number, m2.match_index)) := by
  intro h
  have h2 := (h { pdf_path := "a.pdf", page_number := 1, match_index := 1, context := ['x'] }
      { pdf_path := "a.pdf", page_number := 1, match_index := 1, context := ['y'] }).mpr rfl
  have h3 : (['x'] : List Char) = ['y'] := congrArg SearchMatch.context h2
  exact absurd h3 (by decide)

/-- C9 amended: two `SearchMatch` values are equal iff all four attributes
agree — the triple and the context snippet (Python `@dataclass` equality
compares every declared field). -/
theorem c9_searchmatch_eq (m1 m2 : SearchMatch) :
    m1 = m2 ↔ m1.pdf_path = m2.pdf_path ∧ m1.page_number = m2.page_number ∧
      m1.match_index = m2.match_index ∧ m1.context = m2.context := by
  cases m1
  cases m2
  simp

/-! ### C10 — termination of the literal-search loop -/

/-- C10: with a non-empty query the literal-search loop terminates within
`text.length + 1` iterations (each iteration advances the scan position by
at least the query's positive length); with the empty query, no amount of
fuel makes the loop reach its exit condition — `find` keeps returning the
unchanged position, so the Python loop diverges and the non-empty-query
precondition is required for termination. -/
theorem c10_literal_loop_termination :
    (∀ text query : List Char, query ≠ [] → (find_matches_literal text query).isSome) ∧
    (∀ (text : List Char) (fuel : Nat),
      find_matches_aux (pyLower text) (pyLower []) fuel 0 = none) := by
  constructor
  · intro text query hq
    exact find_matches_literal_isSome hq
  · intro text fuel
    exact find_matches_aux_empty_needle (pyLower text) fuel

/-- Witness for C10 at a concrete text and query. -/
theorem c10_literal_loop_termination_witness :
    (find_matches_literal ['a', 'b', 'a'] ['a']).isSome = true :=
  c10_literal_loop_termination.1 ['a', 'b', 'a'] ['a'] (by decide)

/-! ### C4 — literal matching: case-insensitive, non-overlapping, greedy -/

/-- C4: in literal mode, matching succeeds for any text and non-empty query
and returns exactly the non-overlapping left-to-right occurrences of the
query, compared case-insensitively: every reported pair is a
case-insensitive occurrence spanning the query's length, consecutive
matches do not overlap (each starts at or after the previous end), and
every case-insensitive occurrence position falls inside some reported
match — so no occurrence is missed and none is double-counted.  In
particular searching `"aa"` in `"aaaa"` yields exactly the two matches at
offsets 0 and 2. -/
theorem c4_literal_matching :
    (∀ text query : List Char, query ≠ [] →
      ∃ ms, find_matches_literal text query = some ms ∧
        (∀ pr ∈ ms, pr.2 = pr.1 + query.length ∧
          occursAt (pyLower text) (pyLower query) pr.1) ∧
        List.Chain' (fun a b : Nat × Nat => a.2 ≤ b.1) ms ∧
        (∀ i, occursAt (pyLower text) (pyLower query) i →
          ∃ pr ∈ ms, pr.1 ≤ i ∧ i < pr.2)) ∧
    find_matches_literal ['a', 'a', 'a', 'a'] ['a', 'a'] = some [(0, 2), (2, 4)] := by
  constructor
  · intro text query hq
    have hs := @find_matches_literal_isSome text query hq
    cases hres : find_matches_literal text query with
    | none => rw [hres] at hs; simp at hs
    | some ms =>
      obtain ⟨hsound, hchain, hcompl⟩ :=
        find_matches_aux_sound (pyLower_ne_nil hq) (text.length + 1) 0 ms hres
      refine ⟨ms, rfl, ?_, hchain, ?_⟩
      · intro pr hpr
        obtain ⟨h1, h2, _⟩ := hsound pr hpr
        refine ⟨?_, h2⟩
        rw [h1, pyLower_length]
      · intro i hi
        exact hcompl i (Nat.zero_le i) hi
  · decide

/-- Witness for C4 at a concrete text and query. -/
theorem c4_literal_matching_witness :
    ∃ ms, find_matches_literal ['a', 'B', 'x'] ['b'] = some ms ∧
      (∀ pr ∈ ms, pr.2 = pr.1 + (['b'] : List Char).length ∧
        occursAt (pyLower ['a', 'B', 'x']) (pyLower ['b']) pr.1) ∧
      List.Chain' (fun a b : Nat × Nat => a.2 ≤ b.1) ms ∧
      (∀ i, occursAt (pyLower ['a', 'B', 'x']) (pyLower ['b']) i →
        ∃ pr ∈ ms, pr.1 ≤ i ∧ i < pr.2) :=
  c4_literal_matching.1 ['a', 'B', 'x'] ['b'] (by decide)

/-! ### C5 — per-document indexing: page order, ordinals, empty pages -/

theorem occursAt_nil {needle : List Char} (hne : needle ≠ []) (i : Nat) :
    ¬ occursAt [] needle i := by
  intro h
  have hb := occursAt_bound hne h
  have hpos : 0 < needle.length := List.length_pos.mpr hne
  rw [List.length_nil] at hb
  omega

theorem find_matches_literal_nil {query : List Char} (hq : query ≠ []) :
    find_matches_literal [] query = some [] := by
  have hne := pyLower_ne_nil hq
  have hfind : strFind ([] : List Char) (pyLower query) 0 = none := by
    cases hf : strFind ([] : List Char) (pyLower query) 0 with
    | none => rfl
    | some idx =>
      obtain ⟨_, hocc, _⟩ := strFind_some hf
      exact absurd hocc (occursAt_nil hne idx)
  show find_matches_aux [] (pyLower query) 1 0 = some []
  unfold find_matches_aux
  rw [hfind]

theorem page_matches_length (path : String) (page : Nat) (text : List Char) :
    ∀ (ms : List (Nat × Nat)) (k : Nat),
      (page_matches path page text k ms).length = ms.length := by
  intro ms
  induction ms with
  | nil => intro k; rfl
  | cons pr rest ih =>
    intro k
    obtain ⟨s, e⟩ := pr
    simp [page_matches, ih (k + 1)]

theorem page_matches_map_ordinal (path : String) (page : Nat) (text : List Char) :
    ∀ (ms : List (Nat × Nat)) (k : Nat),
      (page_matches path page text k ms).map SearchMatch.match_index
        = List.range' (k + 1) ms.length := by
  intro ms
  induction ms with
  | nil => intro k; rfl
  | cons pr rest ih =>
    intro k
    obtain ⟨s, e⟩ := pr
    simp only [page_matches, List.map_cons, List.length_cons, List.range'_succ, ih (k + 1)]

theorem page_matches_page {path : String} {page : Nat} {text : List Char} :
    ∀ {ms : List (Nat × Nat)} {k : Nat} {m : SearchMatch},
      m ∈ page_matches path page text k ms → m.page_number = page := by
  intro ms
  induction ms with
  | nil => intro k m h; simp [page_matches] at h
  | cons pr rest ih =>
    intro k m h
    obtain ⟨s, e⟩ := pr
    simp only [page_matches] at h
    rcases List.mem_cons.mp h with rfl | h2
    · rfl
    · exact ih h2

theorem pairwise_le_of_all_eq {l : List Nat} {c : Nat} (h : ∀ x ∈ l, x = c) :
    List.Pairwise (· ≤ ·) l := by
  induction l with
  | nil => simp
  | cons a as ih =>
    refine List.Pairwise.cons ?_ (ih fun x hx => h x (by simp [hx]))
    intro b hb
    rw [h a (by simp), h b (by simp [hb])]

/-- The invariant of the per-page loop of `index_pdf`: with a non-empty
query the loop never diverges; it extracts exactly the listed pages in
order; ordinals continue from the incoming counter, forming a contiguous
run; every produced match belongs to a listed page with non-empty text;
and when the listed page numbers are strictly increasing the produced
matches' page numbers are nondecreasing. -/
theorem index_pages_spec (path : String) (query : List Char) (hq : query ≠ []) :
    ∀ (pages : List (Nat × List Char)) (k : Nat),
      ∃ ms tr, index_pages path query pages k = some (ms, tr) ∧
        tr = pages.map Prod.fst ∧
        ms.map SearchMatch.match_index = List.range' (k + 1) ms.length ∧
        (∀ m ∈ ms, ∃ pr ∈ pages, m.page_number = pr.1 ∧ pr.2 ≠ []) ∧
        (List.Pairwise (· < ·) (pages.map Prod.fst) →
          List.Pairwise (· ≤ ·) (ms.map SearchMatch.page_number)) := by
  intro pages
  induction pages with
  | nil =>
    intro k
    exact ⟨[], [], rfl, rfl, rfl, by simp, fun _ => by simp⟩
  | cons pt rest ih =>
    intro k
    obtain ⟨p, text⟩ := pt
    have hfm := @find_matches_literal_isSome text query hq
    cases hres : find_matches_literal text query with
    | none => rw [hres] at hfm; simp at hfm
    | some prs =>
      obtain ⟨tailMs, tailTr, htail, htr, hord, hmem, hpw⟩ := ih (k + prs.length)
      refine ⟨page_matches path p text k prs ++ tailMs, p :: tailTr, ?_, ?_, ?_, ?_, ?_⟩
      · simp only [index_pages, hres, htail]
      · simp [htr]
      · rw [List.map_append, page_matches_map_ordinal, hord, List.length_append,
          page_matches_length]
        have e1 : k + prs.length + 1 = (k + 1) + prs.length := by omega
        rw [e1, List.range'_append_1, Nat.add_comm tailMs.length prs.length]
      · intro m hm
        rcases List.mem_append.mp hm with hmL | hmR
        · have hpage := page_matches_page hmL
          have htext : text ≠ [] := by
            intro hnil
            subst hnil
            rw [find_matches_literal_nil hq] at hres
            have : prs = [] := by injection hres with h; exact h.symm
            subst this
            simp [page_matches] at hmL
          exact ⟨(p, text), by simp, hpage, htext⟩
        · obtain ⟨pr, hpr, h1, h2⟩ := hmem m hmR
          exact ⟨pr, by simp [hpr], h1, h2⟩
      · intro hpwAll
        simp only [List.map_cons] at hpwAll
        obtain ⟨hlt, hrest⟩ := List.pairwise_cons.mp hpwAll
        rw [List.map_append]
        apply List.pairwise_append.mpr
        refine ⟨?_, hpw hrest, ?_⟩
        · apply @pairwise_le_of_all_eq _ p
          intro x hx
          obtain ⟨m, hmL, hmx⟩ := List.mem_map.mp hx
          rw [← hmx]
          exact page_matches_page hmL
        · intro a ha b hb
          obtain ⟨m1, hm1, hx1⟩ := List.mem_map.mp ha
          obtain ⟨m2, hm2, hx2⟩ := List.mem_map.mp hb
          obtain ⟨pr, hpr, h1, _⟩ := hmem m2 hm2
          have hp : p < pr.1 := hlt pr.1 (List.mem_map_of_mem Prod.fst hpr)
          rw [← hx1, page_matches_page hm1, ← hx2, h1]
          omega

/-- C5: for any document (modelled by its page count and per-page extracted
text) and any non-empty query, indexing extracts pages `1 .. P` in
increasing order, each exactly once; the matches carry
`ordinalWithinDocument` values exactly `1 .. M` in list order (one monotone
counter, never reset per page), with page numbers nondecreasing (page-then-
offset order); and a page with empty extracted text contributes no match,
with no error raised. -/
theorem c5_index_pdf (path : String) (page_count : Nat) (page_text : Nat → List Char)
    (query : List Char) (hq : query ≠ []) :
    ∃ doc trace, index_pdf path page_count page_text query = some (doc, trace) ∧
      trace = List.range' 1 page_count ∧
      doc.matches'.map SearchMatch.match_index = List.range' 1 doc.matches'.length ∧
      List.Pairwise (· ≤ ·) (doc.matches'.map SearchMatch.page_number) ∧
      (∀ p, 1 ≤ p → p ≤ page_count → page_text p = [] →
        ∀ m ∈ doc.matches', m.page_number ≠ p) := by
  obtain ⟨ms, tr, hrun, htr, hord, hmem, hpw⟩ := index_pages_spec path query hq
    ((List.range' 1 page_count).map (fun p => (p, page_text p))) 0
  have hfst : (List.map Prod.fst
      (List.map (fun p => (p, page_text p)) (List.range' 1 page_count)))
      = List.range' 1 page_count := by
    have hid : (Prod.fst ∘ fun p : Nat => (p, page_text p)) = id := rfl
    rw [List.map_map, hid, List.map_id]
  refine ⟨{ path := path, page_count := page_count, matches' := ms }, tr, ?_, ?_, ?_, ?_, ?_⟩
  · simp only [index_pdf, hrun]
  · rw [htr, hfst]
  · simpa using hord
  · apply hpw
    rw [hfst]
    exact List.pairwise_lt_range' 1 page_count
  · intro p hp1 hp2 hempty m hm hpn
    obtain ⟨pr, hpr, h1, h2⟩ := hmem m hm
    obtain ⟨q, hqmem, hqeq⟩ := List.mem_map.mp hpr
    rw [← hqeq] at h1 h2
    simp only at h1 h2
    rw [hpn] at h1
    rw [h1] at hempty
    exact h2 hempty

/-- Witness for C5 at a concrete two-page document (a match on page 1,
empty text on page 2). -/
theorem c5_index_pdf_witness :
    ∃ doc trace,
      index_pdf "a.pdf" 2 (fun p => if p = 1 then ['x', 'y', 'x'] else []) ['x']
        = some (doc, trace) ∧
      trace = List.range' 1 2 ∧
      doc.matches'.map SearchMatch.match_index = List.range' 1 doc.matches'.length ∧
      List.Pairwise (· ≤ ·) (doc.matches'.map SearchMatch.page_number) ∧
      (∀ p, 1 ≤ p → p ≤ 2 →
        (if p = 1 then (['x', 'y', 'x'] : List Char) else []) = [] →
        ∀ m ∈ doc.matches', m.page_number ≠ p) :=
  c5_index_pdf "a.pdf" 2 (fun p => if p = 1 then ['x', 'y', 'x'] else []) ['x'] (by decide)

/-! ### C6 — session aggregation invariant -/

theorem index_pdf_run (path : String) (page_count : Nat) (page_text : Nat → List Char)
    {query : List Char} (hq : query ≠ []) :
    ∃ ms tr, index_pdf path page_count page_text query
      = some ({ path := path, page_count := page_count, matches' := ms }, tr) := by
  obtain ⟨ms, tr, hrun, _, _, _, _⟩ := index_pages_spec path query hq
    ((List.range' 1 page_count).map (fun p => (p, page_text p))) 0
  exact ⟨ms, tr, by simp only [index_pdf, hrun]⟩

/-- C6: after building a session, `documents` is exactly the sequence of
indexed candidates that have at least one match, in candidate order, and
the flat `matches` list is exactly the concatenation of each kept
document's own match list in that same order. -/
theorem c6_session_invariant (candidates : List Candidate) (query : List Char)
    (hq : query ≠ []) :
    ∃ docs ms, index_documents candidates query = some (docs, ms) ∧
      docs = (candidates.filterMap
          (fun c => (index_pdf c.path c.page_count c.page_text query).map Prod.fst)).filter
          (fun d => !d.matches'.isEmpty) ∧
      ms = (docs.map PdfDoc.matches').flatten := by
  induction candidates with
  | nil => exact ⟨[], [], rfl, rfl, rfl⟩
  | cons c rest ih =>
    obtain ⟨docs, ms, hrun, hdocs, hms⟩ := ih
    obtain ⟨cms, ctr, hcrun⟩ := index_pdf_run c.path c.page_count c.page_text hq
    cases hemp : cms.isEmpty with
    | true =>
      refine ⟨docs, ms, ?_, ?_, hms⟩
      · simp only [index_documents, hcrun, hrun, hemp, if_true]
      · rw [hdocs]
        simp [List.filterMap_cons, hcrun, List.filter_cons, hemp]
    | false =>
      refine ⟨{ path := c.path, page_count := c.page_count, matches' := cms } :: docs,
        cms ++ ms, ?_, ?_, ?_⟩
      · simp only [index_documents, hcrun, hrun, hemp, Bool.false_eq_true, if_false]
      · rw [hdocs]
        simp [List.filterMap_cons, hcrun, List.filter_cons, hemp]
      · simp [hms]

/-- Witness for C6: one candidate with a match on its single page. -/
theorem c6_session_invariant_witness :
    ∃ docs ms,
      index_documents [{ path := "a.pdf", page_count := 1, page_text := fun _ => ['x'] }]
        ['x'] = some (docs, ms) ∧
      docs = (([{ path := "a.pdf", page_count := 1, page_text := fun _ => ['x'] }]
          : List Candidate).filterMap
          (fun c => (index_pdf c.path c.page_count c.page_text ['x']).map Prod.fst)).filter
          (fun d => !d.matches'.isEmpty) ∧
      ms = (docs.map PdfDoc.matches').flatten :=
  c6_session_invariant [{ path := "a.pdf", page_count := 1, page_text := fun _ => ['x'] }]
    ['x'] (by decide)

/-! ### C8 — `nextPage` transitions -/

/-- C8: with a consistent position (document index `i` resolving to `doc`,
current page `p`): below the last page, `nextPage` increments the page in
place (and renders); at the last page with a following document, it moves
to that document, landing on its first match's page when it has matches
(also setting the current match) and on page 1 otherwise (and renders); at
the last page of the last document it is a no-op with no render. -/
theorem c8_next_page (sess : Session) (nav : NavState) (i p : Nat) (doc : PdfDoc)
    (hi : nav.current_pdf_index = some i) (hp : nav.current_page = some p)
    (hd : sess.documents.get? i = some doc) :
    (p < doc.page_count →
      next_page sess nav = some ({ nav with current_page := some (p + 1) }, true)) ∧
    (p = doc.page_count →
      ∀ nd, sess.documents.get? (i + 1) = some nd →
        (nd.matches' = [] →
          next_page sess nav
            = some ({ nav with
                      current_pdf_index := some (i + 1),
                      current_page := some 1 }, true)) ∧
        (∀ first rest j, nd.matches' = first :: rest →
          py_list_index sess.matches' first = some j →
          next_page sess nav
            = some ({ nav with
                      current_pdf_index := some (i + 1),
                      current_match_index := some j,
                      current_page := some first.page_number }, true))) ∧
    (p = doc.page_count → i + 1 = sess.documents.length →
      next_page sess nav = some (nav, false)) := by
  have hd' : sess.documents[i]? = some doc := by
    rw [← List.get?_eq_getElem?]
    exact hd
  refine ⟨?_, ?_, ?_⟩
  · intro hlt
    simp [next_page, hi, hp, hd', hlt]
  · intro hpc nd hnd
    have hnd' : sess.documents[i + 1]? = some nd := by
      rw [← List.get?_eq_getElem?]
      exact hnd
    obtain ⟨hlen, -⟩ := List.get?_eq_some.mp hnd
    subst hpc
    constructor
    · intro hmnil
      simp [next_page, hi, hp, hd', hlen, hnd', jump_to_doc_start, hmnil]
    · intro first rest j hm hidx
      simp [next_page, hi, hp, hd', hlen, hnd', jump_to_doc_start, hm, hidx]
  · intro hpc hlast
    subst hpc
    have hnl : ¬ (i + 1 < sess.documents.length) := by omega
    simp [next_page, hi, hp, hd', hnl]

/-- The single match of the first fixture document. -/
def matchA : SearchMatch :=
  { pdf_path := "a.pdf", page_number := 2, match_index := 1, context := ['x'] }

/-- The single match of the second fixture document. -/
def matchB : SearchMatch :=
  { pdf_path := "b.pdf", page_number := 1, match_index := 1, context := ['y'] }

/-- First fixture document: 2 pages, one match on page 2. -/
def docA : PdfDoc := { path := "a.pdf", page_count := 2, matches' := [matchA] }

/-- Second fixture document: 1 page, one match on page 1. -/
def docB : PdfDoc := { path := "b.pdf", page_count := 1, matches' := [matchB] }

/-- A two-document fixture session. -/
def sessAB : Session := { documents := [docA, docB], matches' := [matchA, matchB] }

/-- The fixture navigation state: first match selected, first document,
page 2 (its last page). -/
def navA2 : NavState :=
  { current_match_index := some 0, current_pdf_index := some 0, current_page := some 2 }

/-- Witness for C8 positioned at page 2 (the last page) of the first
fixture document. -/
theorem c8_next_page_witness :
    (2 < docA.page_count →
      next_page sessAB navA2 = some ({ navA2 with current_page := some (2 + 1) }, true)) ∧
    (2 = docA.page_count →
      ∀ nd, sessAB.documents.get? (0 + 1) = some nd →
        (nd.matches' = [] →
          next_page sessAB navA2
            = some ({ navA2 with
                      current_pdf_index := some (0 + 1),
                      current_page := some 1 }, true)) ∧
        (∀ first rest j, nd.matches' = first :: rest →
          py_list_index sessAB.matches' first = some j →
          next_page sessAB navA2
            = some ({ navA2 with
                      current_pdf_index := some (0 + 1),
                      current_match_index := some j,
                      current_page := some first.page_number }, true))) ∧
    (2 = docA.page_count → 0 + 1 = sessAB.documents.length →
      next_page sessAB navA2 = some (navA2, false)) :=
  c8_next_page sessAB navA2 0 2 docA rfl rfl rfl

end PdfGrepUi
